import Mathlib

/-!
Shallow embedding of the DSP latency test harness (`src/index.js`).

The program keeps two JS objects `reqStartTime` and `reqEndTime` mapping a
request id to an `hrtime` pair `[seconds, nanoseconds]`, plus counters
`msgsSent`, `msgsReceived`, `pendingCount`.  The sender loop paces requests
and records start times; the receiver callback records end times; at the end
`statsReport` collects latencies for ids having both timestamps, sorts them
numerically ascending and reports four percentiles.

JS numbers are modelled with exact arithmetic: counters as `Nat`/`Int`
(the pending counter can go negative, hence `Int`), the fractional message
budget `test_duration * MPS` as `Rat`, and latency values as `Int`.  A JS
object used as a map is an association list whose assignment replaces an
existing binding.  A JS out-of-range array read yields `undefined`; the
percentile helper therefore returns `Option` (`none` models the resulting
`NaN` of `undefined / 1000`).
-/

/-- An `hrtime` value `[seconds, nanoseconds]`. -/
abbrev HrTime := Nat × Nat

/-- JS object assignment `m[k] = v`: replace the binding of `k` if present,
otherwise append a fresh binding. -/
def setKey : List (Nat × HrTime) → Nat → HrTime → List (Nat × HrTime)
  | [], k, v => [(k, v)]
  | (k', v') :: rest, k, v =>
      if k' = k then (k, v) :: rest else (k', v') :: setKey rest k v

/-- `uTimeDiff(time0, time1)` from `src/index.js`:
`(time1[0] - time0[0]) * 1e6 + Math.floor((time1[1] - time0[1]) / 1000)`.
`Math.floor` of a real quotient is floor division, `Int.fdiv`. -/
def uTimeDiff (time0 time1 : HrTime) : Int :=
  ((time1.1 : Int) - (time0.1 : Int)) * 1000000
    + Int.fdiv ((time1.2 : Int) - (time0.2 : Int)) 1000

/-- The shared mutable state of the harness: the two timestamp maps and the
three counters (`src/index.js` lines 60-65). -/
structure TestState where
  reqStartTime : List (Nat × HrTime)
  reqEndTime : List (Nat × HrTime)
  msgsSent : Nat
  msgsReceived : Nat
  pendingCount : Int
  deriving Repr, DecidableEq

/-- The state at program start: empty maps, zero counters. -/
def initState : TestState :=
  { reqStartTime := [], reqEndTime := [], msgsSent := 0, msgsReceived := 0,
    pendingCount := 0 }

/-- An observable store event: the sender records a start time after a send
(`reqStartTime[reqID] = process.hrtime(); msgsSent++; pendingCount++;`),
or the receiver handles a reply
(`reqEndTime[reqID] = process.hrtime(); msgsReceived++; pendingCount--;`). -/
inductive Event where
  | send (id : Nat) (t : HrTime)
  | recv (id : Nat) (t : HrTime)
  deriving Repr, DecidableEq

/-- One store transition, exactly the mutations performed by the sender loop
body (lines 189-191) and the receiver message callback (lines 224-233). -/
def step (s : TestState) : Event → TestState
  | .send id t =>
      { s with reqStartTime := setKey s.reqStartTime id t,
               msgsSent := s.msgsSent + 1,
               pendingCount := s.pendingCount + 1 }
  | .recv id t =>
      { s with reqEndTime := setKey s.reqEndTime id t,
               msgsReceived := s.msgsReceived + 1,
               pendingCount := s.pendingCount - 1 }

/-- Run a sequence of store events from the initial state. -/
def run (es : List Event) : TestState := es.foldl step initState

/-- Number of send events in a sequence. -/
def sendCount (es : List Event) : Nat :=
  es.countP fun e => match e with | .send _ _ => true | .recv _ _ => false

/-- Number of reply-receipt events in a sequence. -/
def recvCount (es : List Event) : Nat :=
  es.countP fun e => match e with | .send _ _ => false | .recv _ _ => true

lemma run_msgsSent (es : List Event) : (run es).msgsSent = sendCount es := by
  suffices h : ∀ s : TestState,
      (es.foldl step s).msgsSent = s.msgsSent + sendCount es by
    simpa [run, initState] using h initState
  induction es with
  | nil => intro s; simp [sendCount]
  | cons e es ih =>
      intro s
      cases e with
      | send id t => simp [step, sendCount, ih, List.countP_cons]; omega
      | recv id t => simp [step, sendCount, ih, List.countP_cons]

lemma run_msgsReceived (es : List Event) :
    (run es).msgsReceived = recvCount es := by
  suffices h : ∀ s : TestState,
      (es.foldl step s).msgsReceived = s.msgsReceived + recvCount es by
    simpa [run, initState] using h initState
  induction es with
  | nil => intro s; simp [recvCount]
  | cons e es ih =>
      intro s
      cases e with
      | send id t => simp [step, recvCount, ih, List.countP_cons]
      | recv id t => simp [step, recvCount, ih, List.countP_cons]; omega

lemma run_pendingCount (es : List Event) :
    (run es).pendingCount = (sendCount es : Int) - (recvCount es : Int) := by
  suffices h : ∀ s : TestState, (es.foldl step s).pendingCount
      = s.pendingCount + ((sendCount es : Int) - (recvCount es : Int)) by
    simpa [run, initState] using h initState
  induction es with
  | nil => intro s; simp [sendCount, recvCount]
  | cons e es ih =>
      intro s
      cases e with
      | send id t =>
          simp [step, sendCount, recvCount, ih, List.countP_cons]
          ring
      | recv id t =>
          simp [step, sendCount, recvCount, ih, List.countP_cons]
          ring

/-!
`statsReport` (lines 103-128).  It walks `reqStartTime`, keeping
`uTimeDiff(start, end)` for every id that also has an end time, sorts the
latencies with the numeric ascending comparator `(a, b) => a - b`, and
evaluates `latPercMs = perc => latencies[Math.round(perc * latencies.length) - 1] / 1000`
at `1`, `.999`, `.99`, `.90`.  A JS read `latencies[j]` with `j` outside
`[0, length)` yields `undefined`, and `undefined / 1000` is `NaN`; the
embedding returns `none` for that case.
-/

/-- The completed latencies collected by `statsReport`: one entry per id in
`reqStartTime` whose `reqEndTime[id]` is defined. -/
def completedLatencies (s : TestState) : List Int :=
  s.reqStartTime.filterMap fun p =>
    (List.lookup p.1 s.reqEndTime).map fun t1 => uTimeDiff p.2 t1

/-- `latencies.sort((a, b) => a - b)`: numeric ascending sort. -/
def sortAsc (l : List Int) : List Int := List.insertionSort (· ≤ ·) l

/-- The (possibly out-of-range) array index `Math.round(perc * n) - 1`
computed by `latPercMs`, where `n` is the latency count.  JS `Math.round`
rounds half-up, which is Mathlib's `round` (`⌊x + 1/2⌋`). -/
def latIndex (perc : ℚ) (n : Nat) : Int := round (perc * n) - 1

/-- A JS array read `l[i]`: the element when `0 ≤ i < l.length`, otherwise
`undefined`, modelled as `none`. -/
def jsRead (l : List Int) (i : Int) : Option Int :=
  if h : 0 ≤ i ∧ i.toNat < l.length then some (l.get ⟨i.toNat, h.2⟩) else none

/-- `latPercMs = perc => (latencies[Math.round(perc * latencies.length) - 1] / 1000)`
over the sorted latencies, in milliseconds.  `none` models the `NaN`
produced by an out-of-range read. -/
def latPercMs (latencies : List Int) (perc : ℚ) : Option ℚ :=
  let sorted := sortAsc latencies
  (jsRead sorted (latIndex perc sorted.length)).map fun v => (v : ℚ) / 1000

/-- The full report of `statsReport`: the two counters and the four
percentile values `Max`, `99.9`, `99.0`, `90.0` (in ms). -/
structure StatsResult where
  sent : Nat
  received : Nat
  maxMs : Option ℚ
  p999Ms : Option ℚ
  p99Ms : Option ℚ
  p90Ms : Option ℚ
  deriving Repr, DecidableEq

/-- `statsReport()` evaluated on a store state. -/
def statsReport (s : TestState) : StatsResult :=
  let lats := completedLatencies s
  { sent := s.msgsSent
    received := s.msgsReceived
    maxMs := latPercMs lats 1
    p999Ms := latPercMs lats (999/1000)
    p99Ms := latPercMs lats (99/100)
    p90Ms := latPercMs lats (9/10) }

/-!
The sender loop (lines 159-192).  `msgs = options.test_duration * options.MPS`
(line 57) is a JS number, so in general fractional; the loop
`for (var i = 0; i < msgs; i++)` runs over the naturals `i` with `i < msgs`.
Each iteration computes the schedule `uTimeReqd = Math.floor(i * 1e6 / MPS)`,
optionally sleeps `uTimeReqd - uTimeSpent` microseconds, and sends a message
with `reqID = i + 1`.
-/

/-- `Math.floor(i * 1e6 / options.MPS)` (line 168): the scheduled offset in
microseconds of request index `i` at rate `mps`.  For naturals, `Math.floor`
of the quotient is `Nat` division. -/
def uTimeReqd (i mps : Nat) : Nat := i * 1000000 / mps

/-- The microsecond amount passed to `uSleep` before sending request `i`
(lines 172-174): `uTimeReqd - uTimeSpent` when `uTimeReqd > uTimeSpent`,
otherwise no sleep at all, modelled as `0`.  `uTimeSpent` is an `uTimeDiff`
result, hence an `Int`. -/
def sleepAmount (uReqd : Nat) (uTimeSpent : Int) : Int :=
  if (uReqd : Int) > uTimeSpent then (uReqd : Int) - uTimeSpent else 0

/-- `uSleep(usec)` suspends via `setTimeout(resolve, Math.floor(usec / 1000))`:
the realised delay granularity in milliseconds (line 81). -/
def uSleepMs (usec : Int) : Int := Int.fdiv usec 1000

/-- The sender `for` loop on ids, with explicit fuel: while `(i : ℚ) < msgs`,
emit `reqID = i + 1` and continue with `i + 1`.  Fuel `⌈msgs⌉.toNat + 1`
(see `senderIds`) is enough for the whole run. -/
def senderLoop (msgs : ℚ) : Nat → Nat → List Nat
  | 0, _ => []
  | fuel + 1, i =>
      if (i : ℚ) < msgs then (i + 1) :: senderLoop msgs fuel (i + 1) else []

/-- The request ids generated by one run of the sender loop, in order. -/
def senderIds (msgs : ℚ) : List Nat := senderLoop msgs (⌈msgs⌉.toNat + 1) 0

/-- The value of `msgsSent` when the sender loop finishes: one increment per
iteration. -/
def msgsSentTotal (msgs : ℚ) : Nat := (senderIds msgs).length

/-- `encUInt32` (lines 86-90): a 4-byte buffer holding the id in big-endian
order, each byte reduced mod 256. -/
def encUInt32 (uint32 : Nat) : List Nat :=
  [uint32 / 2 ^ 24 % 256, uint32 / 2 ^ 16 % 256, uint32 / 2 ^ 8 % 256,
   uint32 % 256]

/-- `rawReqID.readUInt32BE(0)` (line 227): big-endian recomposition of the
first four bytes. -/
def readUInt32BE (buf : List Nat) : Nat :=
  buf.getD 0 0 * 2 ^ 24 + buf.getD 1 0 * 2 ^ 16 + buf.getD 2 0 * 2 ^ 8
    + buf.getD 3 0

/-!  Characterisation of the sender loop.  -/

/-- The loop guard `i < msgs` holds exactly when `i` is below `⌈msgs⌉⁺`. -/
lemma lt_msgs_iff (msgs : ℚ) (i : Nat) :
    ((i : ℚ) < msgs) ↔ i < ⌈msgs⌉.toNat := by
  rw [show ((i : ℚ)) = ((i : ℤ) : ℚ) by push_cast; ring, ← Int.lt_ceil]
  omega

lemma senderLoop_eq (msgs : ℚ) :
    ∀ fuel i, ⌈msgs⌉.toNat ≤ i + fuel →
      senderLoop msgs fuel i = List.range' (i + 1) (⌈msgs⌉.toNat - i) := by
  intro fuel
  induction fuel with
  | zero =>
      intro i hi
      have h0 : ⌈msgs⌉.toNat - i = 0 := by omega
      have hguard : ¬ ((i : ℚ) < msgs) := by
        rw [lt_msgs_iff]; omega
      simp [senderLoop, h0]
  | succ fuel ih =>
      intro i hi
      by_cases hguard : (i : ℚ) < msgs
      · have hlt : i < ⌈msgs⌉.toNat := (lt_msgs_iff msgs i).1 hguard
        have hn : ⌈msgs⌉.toNat - i = (⌈msgs⌉.toNat - (i + 1)) + 1 := by omega
        rw [senderLoop, if_pos hguard, ih (i + 1) (by omega), hn,
          List.range'_succ]
      · have hge : ⌈msgs⌉.toNat ≤ i := by
          by_contra hc
          exact hguard ((lt_msgs_iff msgs i).2 (by omega))
        have h0 : ⌈msgs⌉.toNat - i = 0 := by omega
        simp [senderLoop, hguard, h0]

/-- The ids of a whole run are exactly `1, 2, ..., ⌈msgs⌉⁺`. -/
lemma senderIds_eq (msgs : ℚ) :
    senderIds msgs = List.range' 1 ⌈msgs⌉.toNat := by
  have := senderLoop_eq msgs (⌈msgs⌉.toNat + 1) 0 (by omega)
  simpa [senderIds] using this

/-- The number of loop iterations is `⌈msgs⌉⁺`, the number of naturals
below `msgs`. -/
lemma msgsSentTotal_eq (msgs : ℚ) : msgsSentTotal msgs = ⌈msgs⌉.toNat := by
  simp [msgsSentTotal, senderIds_eq]

/-- Floor of a quotient of naturals is `Nat` division. -/
lemma int_floor_nat_div (a b : ℕ) (hb : 0 < b) :
    ⌊(a : ℚ) / (b : ℚ)⌋ = ((a / b : ℕ) : ℤ) := by
  have hb' : (0 : ℚ) < (b : ℚ) := by exact_mod_cast hb
  rw [Int.floor_eq_iff]
  constructor
  · rw [le_div_iff₀ hb']
    exact_mod_cast Nat.div_mul_le_self a b
  · rw [div_lt_iff₀ hb']
    have hub : a < (a / b + 1) * b := by
      have h1 := Nat.div_add_mod a b
      have h2 := Nat.mod_lt a hb
      nlinarith
    exact_mod_cast hub

/-!  Theorems for the frozen claims.  -/

/-- Claim C1, counterexample: for rate `10`/s and duration `0.52` s the
product is `5.2`; the loop `for (i = 0; i < msgs; i++)` executes for
`i = 0, ..., 5`, so 6 requests are sent, while `round(rate * duration) = 5`.
The claim `sent == round(rate * duration)` is false for this run. -/
theorem sent_ne_round_counterexample :
    (msgsSentTotal ((13/25 : ℚ) * 10) : ℤ) ≠ round ((10 : ℚ) * (13/25)) := by
  have h1 : msgsSentTotal ((13/25 : ℚ) * 10) = 6 := by
    rw [msgsSentTotal_eq]
    have hc : ⌈(13/25 : ℚ) * 10⌉ = 6 := by
      rw [Int.ceil_eq_iff]; norm_num
    rw [hc]
    rfl
  have h2 : round ((10 : ℚ) * (13/25)) = 5 := by
    rw [round_eq]; norm_num
  rw [h1, h2]; norm_num

/-- Claim C1, amended: for every run with positive rate and duration, the
total number of requests generated and sent by the sender equals
`⌈rate * duration⌉` (the loop keeps running while `i < msgs`), which agrees
with `round(rate * duration)` only when the product is an integer or has
fractional part at least one half. -/
theorem sent_eq_ceil_rate_mul_duration (rate duration : ℚ)
    (hrate : 0 < rate) (hduration : 0 < duration) :
    (msgsSentTotal (duration * rate) : ℤ) = ⌈rate * duration⌉ := by
  rw [msgsSentTotal_eq, mul_comm duration rate]
  exact Int.toNat_of_nonneg (Int.ceil_nonneg (by positivity))

/-- Witness for `sent_eq_ceil_rate_mul_duration` at rate `10`, duration
`13/25`. -/
theorem sent_eq_ceil_rate_mul_duration_witness :
    (0 : ℚ) < 10 ∧ (0 : ℚ) < 13/25 ∧
      (msgsSentTotal ((13/25 : ℚ) * 10) : ℤ) = ⌈(10 : ℚ) * (13/25)⌉ :=
  ⟨by norm_num, by norm_num,
    sent_eq_ceil_rate_mul_duration 10 (13/25) (by norm_num) (by norm_num)⟩

/-- Claim C9: request ids are assigned at generation time as `reqID = i + 1`,
so over a run they are exactly `1, 2, ..., N` — 1-based, strictly
increasing, all distinct; and for rate `10`/s, duration `0.5` s
(`msgs = 0.5 * 10 = 5`) exactly the five ids `1, ..., 5` are generated. -/
theorem sender_ids_one_based_increasing_unique (msgs : ℚ) :
    senderIds msgs = List.range' 1 (senderIds msgs).length
    ∧ List.Chain' (· < ·) (senderIds msgs)
    ∧ (senderIds msgs).Nodup
    ∧ senderIds ((1/2 : ℚ) * 10) = [1, 2, 3, 4, 5] := by
  refine ⟨?_, ?_, ?_, ?_⟩
  · rw [senderIds_eq, List.length_range']
  · rw [senderIds_eq, List.chain'_iff_pairwise]
    exact List.pairwise_lt_range' 1 _
  · rw [senderIds_eq]
    exact List.nodup_range' 1 _
  · rw [senderIds_eq]
    have h5 : ⌈(1/2 : ℚ) * 10⌉ = 5 := by norm_num
    rw [h5]
    rfl

/-- Claim C8: for request index `i` (0-based) at rate `mps`, the scheduled
offset is `⌊i * 1e6 / mps⌋` microseconds, and the sender suspends for
`scheduled - elapsed` microseconds exactly when `elapsed < scheduled`,
otherwise it does not sleep at all. -/
theorem pacing_schedule_and_sleep (i mps : Nat) (uTimeSpent : Int)
    (hmps : 0 < mps) :
    ((uTimeReqd i mps : Nat) : ℤ) = ⌊(i : ℚ) * 1000000 / (mps : ℚ)⌋
    ∧ (uTimeSpent < (uTimeReqd i mps : Int) →
        sleepAmount (uTimeReqd i mps) uTimeSpent
          = (uTimeReqd i mps : Int) - uTimeSpent)
    ∧ ((uTimeReqd i mps : Int) ≤ uTimeSpent →
        sleepAmount (uTimeReqd i mps) uTimeSpent = 0) := by
  refine ⟨?_, ?_, ?_⟩
  · have h := int_floor_nat_div (i * 1000000) mps hmps
    rw [uTimeReqd, ← h]
    push_cast
    ring_nf
  · intro hlt
    simp [sleepAmount, hlt]
  · intro hge
    simp [sleepAmount, not_lt.mpr hge]

/-- Witness for `pacing_schedule_and_sleep` at `i = 7`, `mps = 30`,
`uTimeSpent = 100000`. -/
theorem pacing_schedule_and_sleep_witness :
    ((uTimeReqd 7 30 : Nat) : ℤ) = ⌊(7 : ℚ) * 1000000 / (30 : ℚ)⌋
    ∧ (100000 < (uTimeReqd 7 30 : Int) →
        sleepAmount (uTimeReqd 7 30) 100000
          = (uTimeReqd 7 30 : Int) - 100000)
    ∧ ((uTimeReqd 7 30 : Int) ≤ 100000 →
        sleepAmount (uTimeReqd 7 30) 100000 = 0) :=
  pacing_schedule_and_sleep 7 30 100000 (by norm_num)

/-- Claim C10: for every id below `2^32`, decoding the sender's 4-byte
big-endian buffer with the receiver's `readUInt32BE` returns the id. -/
theorem enc_dec_uint32_roundtrip (id : Nat) (h : id < 2 ^ 32) :
    readUInt32BE (encUInt32 id) = id := by
  simp [encUInt32, readUInt32BE]
  omega

/-- Witness for `enc_dec_uint32_roundtrip` at `id = 3735928559`. -/
theorem enc_dec_uint32_roundtrip_witness :
    3735928559 < 2 ^ 32 ∧ readUInt32BE (encUInt32 3735928559) = 3735928559 :=
  ⟨by norm_num, enc_dec_uint32_roundtrip 3735928559 (by norm_num)⟩

/-!  Association-list facts used for the receiver claims.  -/

lemma lookup_setKey_self (m : List (Nat × HrTime)) (k : Nat) (v : HrTime) :
    List.lookup k (setKey m k v) = some v := by
  induction m with
  | nil => simp [setKey]
  | cons p rest ih =>
      obtain ⟨a, b⟩ := p
      by_cases h : a = k
      · simp [setKey, h]
      · simp [setKey, h, List.lookup_cons, beq_false_of_ne (Ne.symm h), ih]

lemma lookup_setKey_of_ne (m : List (Nat × HrTime)) (k k' : Nat) (v : HrTime)
    (h : k' ≠ k) : List.lookup k' (setKey m k v) = List.lookup k' m := by
  induction m with
  | nil => simp [setKey, h]
  | cons p rest ih =>
      obtain ⟨a, b⟩ := p
      by_cases hp : a = k
      · subst hp
        simp [setKey, List.lookup_cons, beq_false_of_ne h, ih]
      · simp [setKey, hp, List.lookup_cons, ih]

lemma keys_ne_of_lookup_none (m : List (Nat × HrTime)) (k : Nat)
    (h : List.lookup k m = none) : ∀ p ∈ m, p.1 ≠ k := by
  induction m with
  | nil => simp
  | cons q rest ih =>
      obtain ⟨a, b⟩ := q
      intro p hp
      rcases List.mem_cons.1 hp with hq | hq
      · subst hq
        intro hk
        simp only at hk
        rw [List.lookup_cons, beq_iff_eq.mpr hk.symm] at h
        cases h
      · apply ih ?_ p hq
        by_cases hkq : k = a
        · rw [List.lookup_cons, beq_iff_eq.mpr hkq] at h; cases h
        · rwa [List.lookup_cons, beq_false_of_ne hkq] at h

/-- Claim C3, counterexample: a single reply-receipt event for an id that was
never sent drives `pendingCount` to `-1`, violating `pending ≥ 0`. -/
theorem pending_negative_counterexample :
    (run [Event.recv 5 (0, 0)]).pendingCount = -1 ∧
      ¬ (0 : Int) ≤ (run [Event.recv 5 (0, 0)]).pendingCount := by
  constructor
  · rfl
  · decide

/-- Claim C3, amended: at every observation point
`pending == sent - received` holds for every sequence of send and
reply-receipt events; `pending ≥ 0` additionally holds whenever the replies
received so far do not outnumber the sends (in particular when every reply
is for a previously sent request), but a reply for a never-sent id can make
`pending` negative. -/
theorem pending_eq_sent_sub_received (es : List Event) :
    (run es).pendingCount
        = ((run es).msgsSent : Int) - ((run es).msgsReceived : Int)
    ∧ (recvCount es ≤ sendCount es → 0 ≤ (run es).pendingCount) := by
  refine ⟨?_, ?_⟩
  · rw [run_msgsSent, run_msgsReceived, run_pendingCount]
  · intro h
    rw [run_pendingCount]
    omega

/-- Witness for `pending_eq_sent_sub_received` on the run
`send 1, recv 1`. -/
theorem pending_eq_sent_sub_received_witness :
    (run [Event.send 1 (0, 0), Event.recv 1 (1, 0)]).pendingCount
        = ((run [Event.send 1 (0, 0), Event.recv 1 (1, 0)]).msgsSent : Int)
          - ((run [Event.send 1 (0, 0), Event.recv 1 (1, 0)]).msgsReceived : Int)
    ∧ 0 ≤ (run [Event.send 1 (0, 0), Event.recv 1 (1, 0)]).pendingCount :=
  ⟨(pending_eq_sent_sub_received [Event.send 1 (0, 0), Event.recv 1 (1, 0)]).1,
    (pending_eq_sent_sub_received [Event.send 1 (0, 0), Event.recv 1 (1, 0)]).2
      (by decide)⟩

/-- Claim C2, counterexample: handling a reply for id `7`, which was never
sent, does increment `msgsReceived` and does not crash, but it stores
`reqEndTime[7]`, creating exactly the dangling record — keyed by that id,
with an end timestamp and no start timestamp — that the claim rules out. -/
theorem recv_unknown_end_only_record_counterexample :
    (List.lookup 7 (run [Event.recv 7 (3, 500)]).reqEndTime).isSome = true
    ∧ List.lookup 7 (run [Event.recv 7 (3, 500)]).reqStartTime = none
    ∧ (run [Event.recv 7 (3, 500)]).msgsReceived = 1 := by
  refine ⟨rfl, rfl, rfl⟩

/-- Claim C2, amended: when the receiver handles a reply whose id has no
prior `startTime` record, it increments `received`, decrements `pending`,
and does not crash, but it does create a record keyed by that id holding
only an end timestamp (`reqEndTime[reqID] = process.hrtime()` runs
unconditionally); the dangling record is invisible to `statsReport`, whose
latency collection iterates only over ids with a start time. -/
theorem recv_unknown_defined_behavior (s : TestState) (id : Nat) (t : HrTime)
    (h : List.lookup id s.reqStartTime = none) :
    (step s (.recv id t)).msgsReceived = s.msgsReceived + 1
    ∧ (step s (.recv id t)).pendingCount = s.pendingCount - 1
    ∧ List.lookup id (step s (.recv id t)).reqEndTime = some t
    ∧ List.lookup id (step s (.recv id t)).reqStartTime = none
    ∧ completedLatencies (step s (.recv id t)) = completedLatencies s := by
  refine ⟨rfl, rfl, lookup_setKey_self _ _ _, h, ?_⟩
  unfold completedLatencies
  simp only [step]
  apply List.filterMap_congr
  intro p hp
  rw [lookup_setKey_of_ne _ _ _ _ (keys_ne_of_lookup_none _ _ h p hp)]

/-- Witness for `recv_unknown_defined_behavior` at the initial state,
id `7`. -/
theorem recv_unknown_defined_behavior_witness :
    (step initState (.recv 7 (3, 500))).msgsReceived = initState.msgsReceived + 1
    ∧ (step initState (.recv 7 (3, 500))).pendingCount
        = initState.pendingCount - 1
    ∧ List.lookup 7 (step initState (.recv 7 (3, 500))).reqEndTime
        = some (3, 500)
    ∧ List.lookup 7 (step initState (.recv 7 (3, 500))).reqStartTime = none
    ∧ completedLatencies (step initState (.recv 7 (3, 500)))
        = completedLatencies initState :=
  recv_unknown_defined_behavior initState 7 (3, 500) rfl

/-!  Percentiles on an empty sample (claim C4).  -/

/-- On an empty latency list every percentile read misses: `jsRead` on `[]`
returns `undefined` for every index, so `latPercMs` is `NaN` (`none`). -/
lemma latPercMs_nil (perc : ℚ) : latPercMs [] perc = none := by
  simp [latPercMs, sortAsc, jsRead]

/-- Claim C4, counterexample: with zero completed latencies the index the
code reads is `Math.round(p * 0) - 1 = -1` — an out-of-bounds access (the
claim asserts none occurs) — and the reported value is the `NaN` of
`undefined / 1000` (`none`), not an explicit "no data" result. -/
theorem empty_percentile_out_of_bounds_counterexample :
    latIndex 1 0 = -1
    ∧ jsRead (sortAsc []) (latIndex 1 0) = none
    ∧ latPercMs [] 1 = none := by
  refine ⟨?_, ?_, latPercMs_nil 1⟩
  · simp [latIndex]
  · simp [latIndex, sortAsc, jsRead]

/-- Claim C4, amended: when no id has both a start and an end timestamp the
latency list is empty and `statsReport` still terminates with a defined
result — no crash — but each of the four percentiles is produced by the
out-of-range read `latencies[-1]`, i.e. JS `undefined`, and is reported as
`NaN` (`none`) rather than as an explicit "no data" value. -/
theorem empty_sample_percentiles_nan (s : TestState)
    (h : ∀ id ∈ s.reqStartTime.map Prod.fst,
        List.lookup id s.reqEndTime = none) :
    completedLatencies s = []
    ∧ (statsReport s).maxMs = none
    ∧ (statsReport s).p999Ms = none
    ∧ (statsReport s).p99Ms = none
    ∧ (statsReport s).p90Ms = none := by
  have hempty : completedLatencies s = [] := by
    rw [completedLatencies, List.filterMap_eq_nil_iff]
    intro p hp
    rw [h p.1 (List.mem_map.2 ⟨p, hp, rfl⟩)]
    rfl
  refine ⟨hempty, ?_, ?_, ?_, ?_⟩ <;>
    simp [statsReport, hempty, latPercMs_nil]

/-- Witness for `empty_sample_percentiles_nan` at the initial state. -/
theorem empty_sample_percentiles_nan_witness :
    completedLatencies initState = []
    ∧ (statsReport initState).maxMs = none
    ∧ (statsReport initState).p999Ms = none
    ∧ (statsReport initState).p99Ms = none
    ∧ (statsReport initState).p90Ms = none :=
  empty_sample_percentiles_nan initState (by simp [initState])

/-!  Percentiles on a nonempty sample (claims C5, C6, C7).  -/

lemma sortAsc_sorted (l : List Int) : List.Sorted (· ≤ ·) (sortAsc l) :=
  List.sorted_insertionSort _ l

lemma sortAsc_length (l : List Int) : (sortAsc l).length = l.length :=
  (List.perm_insertionSort _ l).length_eq

/-- For a nonempty sample and `9/10 ≤ p ≤ 1`, the unclamped index
`round(p * n) - 1` already lies inside `[0, n - 1]`. -/
lemma latIndex_bounds (n : ℕ) (p : ℚ) (hn : 1 ≤ n) (hp1 : 9/10 ≤ p)
    (hp2 : p ≤ 1) : 0 ≤ latIndex p n ∧ latIndex p n < (n : ℤ) := by
  have hn' : (1 : ℚ) ≤ (n : ℚ) := by exact_mod_cast hn
  have hlow : (1 : ℤ) ≤ round (p * n) := by
    rw [round_eq, Int.le_floor]
    have : (9/10 : ℚ) ≤ p * n := by nlinarith
    push_cast
    linarith
  have hhigh : round (p * n) ≤ (n : ℤ) := by
    rw [round_eq]
    have hmono : ⌊p * (n : ℚ) + 1/2⌋ ≤ ⌊(1/2 : ℚ) + (n : ℚ)⌋ := by
      apply Int.floor_mono
      nlinarith
    have hfl : ⌊(1/2 : ℚ) + (n : ℚ)⌋ = (n : ℤ) := by
      rw [Int.floor_add_nat]
      norm_num
    omega
  unfold latIndex
  omega

lemma latIndex_toNat_lt (l : List Int) (p : ℚ) (hl : l ≠ [])
    (hp1 : 9/10 ≤ p) (hp2 : p ≤ 1) :
    (latIndex p (sortAsc l).length).toNat < (sortAsc l).length := by
  have hn : 1 ≤ (sortAsc l).length := by
    rw [sortAsc_length]
    exact List.length_pos.2 hl
  have hb := latIndex_bounds (sortAsc l).length p hn hp1 hp2
  omega

/-- For a nonempty sample and any of the four probed fractions, `latPercMs`
returns the sorted element at the unclamped index, divided by `1000`. -/
lemma latPercMs_eq_get (l : List Int) (p : ℚ) (hl : l ≠ [])
    (hp1 : 9/10 ≤ p) (hp2 : p ≤ 1) :
    latPercMs l p = some
      (((sortAsc l).get ⟨(latIndex p (sortAsc l).length).toNat,
          latIndex_toNat_lt l p hl hp1 hp2⟩ : ℚ) / 1000) := by
  have hn : 1 ≤ (sortAsc l).length := by
    rw [sortAsc_length]
    exact List.length_pos.2 hl
  have hb := latIndex_bounds (sortAsc l).length p hn hp1 hp2
  have hcond : 0 ≤ latIndex p (sortAsc l).length
      ∧ (latIndex p (sortAsc l).length).toNat < (sortAsc l).length := by
    constructor
    · exact hb.1
    · omega
  rw [latPercMs, jsRead, dif_pos hcond]
  rfl

/-- Modelled from the spec: percentile function `P(p)` — index
`round(p * n) - 1` clamped to `[0, n - 1]` over the ascending-sorted
latencies, value `latencies[index] / 1000` in milliseconds. -/
def specPercMs (l : List Int) (p : ℚ) : ℚ :=
  let sorted := sortAsc l
  let n := sorted.length
  let idx := min (max (round (p * (n : ℚ)) - 1) 0) ((n : ℤ) - 1)
  ((sorted.getD idx.toNat 0 : Int) : ℚ) / 1000

/-- Claim C5: for every nonempty latency sample and each
`p ∈ {1, 0.999, 0.99, 0.90}`, the reported percentile is obtained by
sorting ascending numerically and reading the sorted array at index
`round(p * n) - 1` clamped to `[0, n - 1]`, divided by `1000` — exactly the
spec's `P(p)` (the code has no clamp, but for these fractions the index is
already in range). -/
theorem percentile_formula_matches_spec (l : List Int) (p : ℚ) (hl : l ≠ [])
    (hp : p = 1 ∨ p = 999/1000 ∨ p = 99/100 ∨ p = 9/10) :
    List.Sorted (· ≤ ·) (sortAsc l) ∧ (sortAsc l).Perm l
    ∧ latPercMs l p = some (specPercMs l p) := by
  have hp1 : 9/10 ≤ p := by rcases hp with h | h | h | h <;> rw [h] <;> norm_num
  have hp2 : p ≤ 1 := by rcases hp with h | h | h | h <;> rw [h] <;> norm_num
  refine ⟨sortAsc_sorted l, List.perm_insertionSort _ l, ?_⟩
  rw [latPercMs_eq_get l p hl hp1 hp2]
  have hn : 1 ≤ (sortAsc l).length := by
    rw [sortAsc_length]
    exact List.length_pos.2 hl
  have hb := latIndex_bounds (sortAsc l).length p hn hp1 hp2
  have hclamp : min (max (round (p * ((sortAsc l).length : ℚ)) - 1) 0)
      (((sortAsc l).length : ℤ) - 1) = latIndex p (sortAsc l).length := by
    unfold latIndex at hb ⊢
    omega
  rw [specPercMs]
  simp only [hclamp]
  congr 1
  rw [List.getD_eq_getElem _ _ (latIndex_toNat_lt l p hl hp1 hp2)]
  rfl

/-- Witness for `percentile_formula_matches_spec` on the sample
`[2500, 1000]` at `p = 9/10`. -/
theorem percentile_formula_matches_spec_witness :
    List.Sorted (· ≤ ·) (sortAsc [2500, 1000])
    ∧ (sortAsc [2500, 1000]).Perm [2500, 1000]
    ∧ latPercMs [2500, 1000] (9/10) = some (specPercMs [2500, 1000] (9/10)) :=
  percentile_formula_matches_spec [2500, 1000] (9/10) (by decide)
    (Or.inr (Or.inr (Or.inr rfl)))

/-- The index `round(p * n) - 1` is monotone in the fraction `p`. -/
lemma latIndex_mono (n : ℕ) {p q : ℚ} (_hp : 0 ≤ p) (hpq : p ≤ q) :
    latIndex p n ≤ latIndex q n := by
  unfold latIndex
  have : round (p * (n : ℚ)) ≤ round (q * (n : ℚ)) := by
    rw [round_eq, round_eq]
    apply Int.floor_mono
    have hn : (0 : ℚ) ≤ (n : ℚ) := by positivity
    nlinarith
  omega

/-- In a `(· ≤ ·)`-sorted list, values are monotone in the position. -/
lemma sorted_get_mono (l : List Int) (hs : List.Sorted (· ≤ ·) l)
    (i j : Fin l.length) (hij : (i : ℕ) ≤ (j : ℕ)) : l.get i ≤ l.get j :=
  hs.rel_get_of_le hij

/-- The percentile value at a smaller probed fraction reads an earlier
position of the sorted list, hence a smaller-or-equal value. -/
lemma latPerc_value_mono (l : List Int) (hl : l ≠ []) {p q : ℚ}
    (hp1 : 9/10 ≤ p) (hp2 : p ≤ 1) (hq1 : 9/10 ≤ q) (hq2 : q ≤ 1)
    (hpq : p ≤ q) :
    (((sortAsc l).get ⟨(latIndex p (sortAsc l).length).toNat,
        latIndex_toNat_lt l p hl hp1 hp2⟩ : ℚ) / 1000)
      ≤ (((sortAsc l).get ⟨(latIndex q (sortAsc l).length).toNat,
          latIndex_toNat_lt l q hl hq1 hq2⟩ : ℚ) / 1000) := by
  apply (div_le_div_iff_of_pos_right (by norm_num : (0:ℚ) < 1000)).2
  apply Int.cast_le.2
  apply sorted_get_mono _ (sortAsc_sorted l)
  show (latIndex p (sortAsc l).length).toNat
      ≤ (latIndex q (sortAsc l).length).toNat
  have hmono := latIndex_mono (sortAsc l).length
    (le_trans (by norm_num : (0:ℚ) ≤ 9/10) hp1) hpq
  omega

/-- Claim C6: for every nonempty completed-latency sample the four reported
percentiles are monotonically ordered:
`P(0.90) ≤ P(0.99) ≤ P(0.999) ≤ P(1.0)`. -/
theorem percentiles_monotone (l : List Int) (hl : l ≠ []) :
    ∃ a b c d : ℚ,
      latPercMs l (9/10) = some a ∧ latPercMs l (99/100) = some b
      ∧ latPercMs l (999/1000) = some c ∧ latPercMs l 1 = some d
      ∧ a ≤ b ∧ b ≤ c ∧ c ≤ d := by
  have h90 := latPercMs_eq_get l (9/10) hl (by norm_num) (by norm_num)
  have h99 := latPercMs_eq_get l (99/100) hl (by norm_num) (by norm_num)
  have h999 := latPercMs_eq_get l (999/1000) hl (by norm_num) (by norm_num)
  have h1 := latPercMs_eq_get l 1 hl (by norm_num) (by norm_num)
  refine ⟨_, _, _, _, h90, h99, h999, h1, ?_, ?_, ?_⟩
  · exact latPerc_value_mono l hl (by norm_num) (by norm_num) (by norm_num)
      (by norm_num) (by norm_num)
  · exact latPerc_value_mono l hl (by norm_num) (by norm_num) (by norm_num)
      (by norm_num) (by norm_num)
  · exact latPerc_value_mono l hl (by norm_num) (by norm_num) (by norm_num)
      (by norm_num) (by norm_num)

/-- Witness for `percentiles_monotone` on the sample `[42]`. -/
theorem percentiles_monotone_witness :
    ([42] : List Int) ≠ []
    ∧ ∃ a b c d : ℚ,
        latPercMs [42] (9/10) = some a ∧ latPercMs [42] (99/100) = some b
        ∧ latPercMs [42] (999/1000) = some c ∧ latPercMs [42] 1 = some d
        ∧ a ≤ b ∧ b ≤ c ∧ c ≤ d :=
  ⟨by decide, percentiles_monotone [42] (by decide)⟩

/-- On a one-element sample, any fraction whose rounded product is `1` reads
position `0`, i.e. the unique latency. -/
lemma latPercMs_singleton (L : Int) (p : ℚ) (h : round p = 1) :
    latPercMs [L] p = some ((L : ℚ) / 1000) := by
  have hs : sortAsc [L] = [L] := rfl
  have hidx : latIndex p ([L] : List Int).length = 0 := by
    simp [latIndex, h]
  rw [latPercMs]
  simp only [hs, List.length_singleton] at hidx ⊢
  rw [hidx]
  simp [jsRead]

/-- Claim C7: if the completed-latency sample is exactly one latency `L`,
all four reported percentiles (max = P(1.0), P(0.999), P(0.99), P(0.90))
equal `L / 1000` milliseconds. -/
theorem singleton_sample_percentiles (L : Int) :
    latPercMs [L] 1 = some ((L : ℚ) / 1000)
    ∧ latPercMs [L] (999/1000) = some ((L : ℚ) / 1000)
    ∧ latPercMs [L] (99/100) = some ((L : ℚ) / 1000)
    ∧ latPercMs [L] (9/10) = some ((L : ℚ) / 1000) := by
  refine ⟨latPercMs_singleton L 1 ?_, latPercMs_singleton L (999/1000) ?_,
    latPercMs_singleton L (99/100) ?_, latPercMs_singleton L (9/10) ?_⟩ <;>
  · rw [round_eq]; norm_num
